import Mathlib

/-!
Verification development for the Drawpile server backend core
(`src/libserver`): the `SessionHistory` append log with size accounting,
the `LoginHandler` handshake state machine, and the `Sessions` registry.

Definitions are shallow embeddings of the C++ sources. Inline member
functions present in the headers are translated directly; non-virtual
member functions whose bodies live in `.cpp` files outside the reviewed
sources are modelled from the specification, each marked
`Modelled from the spec:` in its doc comment.
-/

namespace Drawpile

/-- A protocol message, abstracted to the only attribute the history
bookkeeping reads from it: its serialized length in bytes
(`net::Message::length()`). -/
structure Message where
  length : Nat
deriving Repr, DecidableEq

/-- Total serialized size of a message list: the sum of the serialized
lengths of its messages. -/
def totalSize : List Message → Nat
  | [] => 0
  | m :: rest => m.length + totalSize rest

/-- The mutable state of `server::SessionHistory` that the size
accounting, index bookkeeping and catch-up key operations touch:
`m_sizeInBytes`, `m_sizeLimit`, `m_firstIndex`, `m_lastIndex`, the
stored message log, and the next catch-up key. -/
structure SessionHistory where
  sizeInBytes : Nat
  sizeLimit : Nat
  firstIndex : Int
  lastIndex : Int
  messages : List Message
  catchupKey : Int
deriving Repr, DecidableEq

namespace SessionHistory

/-- Modelled from the spec: the private helper
`SessionHistory::hasSpaceFor(bytes, extra)` (body not among the reviewed
sources). A size limit of zero means the size is not limited; otherwise
the new total must stay within the limit plus the extra allowance. -/
def hasSpaceFor (h : SessionHistory) (bytes extra : Nat) : Bool :=
  h.sizeLimit == 0 || decide (h.sizeInBytes + bytes ≤ h.sizeLimit + extra)

/-- Source: `SessionHistory::hasRegularSpaceFor`, inline in the header:
`hasSpaceFor(bytes, 0)`. -/
def hasRegularSpaceFor (h : SessionHistory) (bytes : Nat) : Bool :=
  h.hasSpaceFor bytes 0

/-- Source: `SessionHistory::hasEmergencySpaceFor`, inline in the header:
`hasSpaceFor(bytes, 1024*1024)`, one MiB of emergency space. -/
def hasEmergencySpaceFor (h : SessionHistory) (bytes : Nat) : Bool :=
  h.hasSpaceFor bytes (1024 * 1024)

/-- Modelled from the spec: `SessionHistory::addMessageInternal` (body
not among the reviewed sources). Appends the message, adding its size to
`m_sizeInBytes` and advancing `m_lastIndex`. -/
def addMessageInternal (h : SessionHistory) (msg : Message) : SessionHistory :=
  { h with
    sizeInBytes := h.sizeInBytes + msg.length
    lastIndex := h.lastIndex + 1
    messages := h.messages ++ [msg] }

/-- Modelled from the spec: `SessionHistory::addMessage` (body not among
the reviewed sources). Appends iff `hasRegularSpaceFor(size(msg))`; on
success updates the size and last index, on failure returns false and
leaves all state unchanged. -/
def addMessage (h : SessionHistory) (msg : Message) : Bool × SessionHistory :=
  if h.hasRegularSpaceFor msg.length then
    (true, h.addMessageInternal msg)
  else
    (false, h)

/-- Modelled from the spec: `SessionHistory::addEmergencyMessage` (body
not among the reviewed sources). Like `addMessage` but may use up to an
extra MiB of space for important messages. -/
def addEmergencyMessage (h : SessionHistory) (msg : Message) :
    Bool × SessionHistory :=
  if h.hasEmergencySpaceFor msg.length then
    (true, h.addMessageInternal msg)
  else
    (false, h)

/-- Run a sequence of `addMessage` calls, collecting each call's return
value together with the final history state. -/
def addMessages (h : SessionHistory) (msgs : List Message) :
    List Bool × SessionHistory :=
  match msgs with
  | [] => ([], h)
  | msg :: rest =>
    let (ok, h') := h.addMessage msg
    let (oks, h'') := h'.addMessages rest
    (ok :: oks, h'')

/-- Modelled from the spec: `SessionHistory::reset` (body not among the
reviewed sources). Replaces the log and its size with the new set; fails
without mutation when the new history is larger than a nonzero size
limit; the index numbers continue as they were, so the new first index
starts right after the old last index. -/
def reset (h : SessionHistory) (newHistory : List Message) :
    Bool × SessionHistory :=
  let newSize := totalSize newHistory
  if h.sizeLimit ≠ 0 ∧ newSize > h.sizeLimit then
    (false, h)
  else
    (true,
      { h with
        sizeInBytes := newSize
        firstIndex := h.lastIndex + 1
        lastIndex := h.lastIndex + newHistory.length
        messages := newHistory })

end SessionHistory

/-- Source: `SessionHistory::MIN_CATCHUP_KEY` from the header. -/
def MIN_CATCHUP_KEY : Int := 1

/-- Source: `SessionHistory::MAX_CATCHUP_KEY` from the header. -/
def MAX_CATCHUP_KEY : Int := 999999999

/-- Source: `SessionHistory::INITIAL_CATCHUP_KEY` from the header. -/
def INITIAL_CATCHUP_KEY : Int := 1000000

/-- Modelled from the spec: `SessionHistory::incrementNextCatchupKey`
(body not among the reviewed sources). Allocates the next catch-up key:
the returned key always lies within [MIN_CATCHUP_KEY, MAX_CATCHUP_KEY]
and is never 0, and after the maximum the stored key wraps around to
INITIAL_CATCHUP_KEY rather than to the minimum. Returns the allocated
key together with the updated stored key. -/
def incrementNextCatchupKey (k : Int) : Int × Int :=
  let result := max MIN_CATCHUP_KEY (min k MAX_CATCHUP_KEY)
  (result,
    if result ≥ MAX_CATCHUP_KEY then INITIAL_CATCHUP_KEY else result + 1)

/-- Modelled from the spec: `nextCatchupKey()` on a history backend
(bodies not among the reviewed sources): allocates from the stored key
via `incrementNextCatchupKey`. -/
def SessionHistory.nextCatchupKey (h : SessionHistory) :
    Int × SessionHistory :=
  let (result, k') := incrementNextCatchupKey h.catchupKey
  (result, { h with catchupKey := k' })

/-! ### InMemoryHistory: user limit and persistent flags -/

/-- Source: Qt's `qBound(min, val, max)`, which is
`qMax(min, qMin(max, val))`. -/
def qBound (lo v hi : Int) : Int := max lo (min hi v)

/-- Source: the `SessionHistory::Flag` enum from the header. -/
inductive Flag
  | Persistent
  | PreserveChat
  | Nsfm
  | Deputies
  | AuthOnly
  | IdleOverride
  | AllowWeb
deriving Repr, DecidableEq

/-- Source: the numeric values of the `SessionHistory::Flag` enum
(0x01, 0x02, 0x04, 0x08, 0x10, 0x20, 0x40). -/
def flagValue : Flag → Nat
  | .Persistent => 0x01
  | .PreserveChat => 0x02
  | .Nsfm => 0x04
  | .Deputies => 0x08
  | .AuthOnly => 0x10
  | .IdleOverride => 0x20
  | .AllowWeb => 0x40

/-- Source: `QFlags::testFlag(flag)` on a flag set stored as a bitmask:
`(i & flag) == flag` (every Flag value is nonzero, so the zero-flag
special case of QFlags does not arise). -/
def testFlag (i : Nat) (f : Flag) : Bool :=
  i &&& flagValue f == flagValue f

/-- Source: `QFlags::setFlag(flag, on)` on a bitmask: `i | flag` when on,
`i & ~flag` when off. -/
def setFlagValue (i : Nat) (f : Flag) (flagOn : Bool) : Nat :=
  if flagOn then i ||| flagValue f else Nat.ldiff i (flagValue f)

/-- The state of `server::InMemoryHistory` that the claims touch:
`m_maxUsers` and the persistent flag bitmask `m_flags` (whose
`setFlags` override is plain assignment). -/
structure InMemoryHistory where
  maxUsers : Int
  flags : Nat
deriving Repr, DecidableEq

namespace InMemoryHistory

/-- Source: `InMemoryHistory::setMaxUsers(max)`, inline in the header:
`m_maxUsers = qBound(1, max, 254)`. -/
def setMaxUsers (h : InMemoryHistory) (m : Int) : InMemoryHistory :=
  { h with maxUsers := qBound 1 m 254 }

/-- Source: `SessionHistory::hasFlag(flag)`, inline in the header:
`flags().testFlag(flag)`. -/
def hasFlag (h : InMemoryHistory) (f : Flag) : Bool :=
  testFlag h.flags f

/-- Source: `SessionHistory::setFlag(flag, on)`, inline in the header:
reads `flags()`, and only when the requested value differs from the
current one writes the updated set back through the virtual `setFlags`
(plain assignment in `InMemoryHistory`). The returned Bool records
whether `setFlags` was invoked. -/
def setFlag (h : InMemoryHistory) (f : Flag) (flagOn : Bool) :
    Bool × InMemoryHistory :=
  let isSet := testFlag h.flags f
  if (flagOn && !isSet) || (!flagOn && isSet) then
    (true, { h with flags := setFlagValue h.flags f flagOn })
  else
    (false, h)

end InMemoryHistory

/-! ### Sessions registry -/

/-- A live session as the registry sees it: its unique ID, its alias
(possibly empty), and the founder name. -/
structure SessionRec where
  sid : String
  sidAlias : String
  founder : String
deriving Repr, DecidableEq

/-- The state of a `server::Sessions` registry implementation: the live
sessions, the server's protocol-version policy, and the session-count
limit from configuration. -/
structure Sessions where
  sessions : List SessionRec
  protocolSupported : String → Bool
  sessionLimit : Nat

/-- Whether some live session already uses the string as its ID or
alias. -/
def Sessions.inUse (reg : Sessions) (x : String) : Bool :=
  reg.sessions.any fun s => s.sid == x || s.sidAlias == x

/-- Modelled from the spec: the `Sessions::createSession` implementation
(not among the reviewed sources; the interface header documents the
error codes). Fails with `idInuse` when a session with this ID or alias
already exists, with `badProtocol` when the protocol version is not
supported, and with `closed` when the session-count limit is reached;
otherwise registers and returns the new session. A failure returns a
null session with the error code and leaves the registry unchanged. -/
def Sessions.createSession (reg : Sessions)
    (sid sidAlias ver founder : String) :
    Option SessionRec × String × Sessions :=
  if reg.inUse sid || (sidAlias != "" && reg.inUse sidAlias) then
    (none, "idInuse", reg)
  else if !reg.protocolSupported ver then
    (none, "badProtocol", reg)
  else if reg.sessionLimit ≤ reg.sessions.length then
    (none, "closed", reg)
  else
    let s : SessionRec := ⟨sid, sidAlias, founder⟩
    (some s, "", { reg with sessions := reg.sessions ++ [s] })

/-! ### LoginHandler handshake state machine -/

/-- Source: `LoginHandler::MAX_PASSWORD_ATTEMPTS` from the header. -/
def MAX_PASSWORD_ATTEMPTS : Nat := 10

/-- Source: the `LoginHandler::State` enum from the header. -/
inductive LState
  | WaitForSecure
  | WaitForLookup
  | WaitForIdent
  | WaitForLogin
  | Ignore
deriving Repr, DecidableEq

/-- The abstract kinds of client messages the handshake distinguishes:
a STARTTLS command, a successful lookup, an IDENT accepted, an IDENT
with an incorrect password, a successful HOST/JOIN, and anything
else. -/
inductive LoginEvent
  | starttls
  | lookupOk
  | identOk
  | identWrongPassword
  | hostOrJoinOk
  | other
deriving Repr, DecidableEq

/-- The per-connection handshake state the claims touch: `m_state`, the
failed-password counter `m_authPasswordAttempts`, whether the
connection has been dropped, whether an authentication error was sent,
and `m_complete`. -/
structure LoginHandler where
  state : LState
  authPasswordAttempts : Nat
  disconnected : Bool
  authErrorSent : Bool
  complete : Bool
deriving Repr, DecidableEq

namespace LoginHandler

/-- Modelled from the spec: the handshake state at the start of the
login process when the server mandates encryption (the
`startLoginProcess` body is not among the reviewed sources): the
machine begins in `WaitForSecure` with no failed password attempts. -/
def init : LoginHandler :=
  { state := .WaitForSecure
    authPasswordAttempts := 0
    disconnected := false
    authErrorSent := false
    complete := false }

/-- Modelled from the spec: a fatal protocol error during login — the
error is sent, the connection dropped, and the handler absorbs any late
messages in the `Ignore` state. -/
def fatal (h : LoginHandler) : LoginHandler :=
  { h with state := .Ignore, disconnected := true }

/-- Modelled from the spec: the `handleLoginMessage` dispatch (body not
among the reviewed sources). `Ignore` absorbs everything. In
`WaitForSecure` (encryption mandated) only STARTTLS advances, anything
else is a fatal error. A successful lookup gates entry to
`WaitForIdent`; an accepted IDENT enters `WaitForLogin`; an incorrect
password increments the attempt counter and, at the tenth failure,
disconnects with an authentication error; HOST/JOIN completes the
handshake. -/
def step (h : LoginHandler) (e : LoginEvent) : LoginHandler :=
  match h.state, e with
  | .Ignore, _ => h
  | .WaitForSecure, .starttls => { h with state := .WaitForLookup }
  | .WaitForSecure, _ => h.fatal
  | .WaitForLookup, .lookupOk => { h with state := .WaitForIdent }
  | .WaitForLookup, _ => h.fatal
  | .WaitForIdent, .identOk => { h with state := .WaitForLogin }
  | .WaitForIdent, .identWrongPassword =>
    let a := h.authPasswordAttempts + 1
    if MAX_PASSWORD_ATTEMPTS ≤ a then
      { h with
        state := .Ignore
        authPasswordAttempts := a
        disconnected := true
        authErrorSent := true }
    else
      { h with authPasswordAttempts := a }
  | .WaitForIdent, _ => h.fatal
  | .WaitForLogin, .hostOrJoinOk => { h with complete := true }
  | .WaitForLogin, _ => h.fatal

/-- Process a sequence of received messages. -/
def run (h : LoginHandler) (es : List LoginEvent) : LoginHandler :=
  es.foldl step h

/-- The successor of each state in the handshake chain
`WaitForSecure → WaitForLookup → WaitForIdent → WaitForLogin`. -/
def chainNext : LState → LState
  | .WaitForSecure => .WaitForLookup
  | .WaitForLookup => .WaitForIdent
  | .WaitForIdent => .WaitForLogin
  | .WaitForLogin => .WaitForLogin
  | .Ignore => .Ignore

end LoginHandler

/-! ## Theorems -/

/-- Claim C8: after `InMemoryHistory::setMaxUsers(n)` the stored user
limit lies in [1, 254]; inputs below 1 clamp to 1, inputs above 254
clamp to 254, and outside that range the stored limit never equals the
requested value. -/
theorem InMemoryHistory.setMaxUsers_clamped (h : InMemoryHistory) (n : Int) :
    1 ≤ (h.setMaxUsers n).maxUsers ∧ (h.setMaxUsers n).maxUsers ≤ 254 ∧
    (n < 1 → (h.setMaxUsers n).maxUsers = 1) ∧
    (254 < n → (h.setMaxUsers n).maxUsers = 254) ∧
    ((n < 1 ∨ 254 < n) → (h.setMaxUsers n).maxUsers ≠ n) := by
  simp only [setMaxUsers, qBound]
  omega

/-- Witness for C8 at a concrete out-of-range input. -/
theorem InMemoryHistory.setMaxUsers_clamped_witness :
    (254 < (300 : Int) ∧ ((InMemoryHistory.mk 5 0).setMaxUsers 300).maxUsers = 254) ∧
    ((-7 : Int) < 1 ∧ ((InMemoryHistory.mk 5 0).setMaxUsers (-7)).maxUsers = 1) :=
  ⟨⟨by norm_num,
      (InMemoryHistory.setMaxUsers_clamped ⟨5, 0⟩ 300).2.2.2.1 (by norm_num)⟩,
    ⟨by norm_num,
      (InMemoryHistory.setMaxUsers_clamped ⟨5, 0⟩ (-7)).2.2.1 (by norm_num)⟩⟩

/-- When the size limit is zero, every `addMessage` in a sequence
succeeds and the size grows by exactly the total appended size. -/
theorem SessionHistory.addMessages_of_sizeLimit_zero
    (msgs : List Message) :
    ∀ h : SessionHistory, h.sizeLimit = 0 →
      (h.addMessages msgs).1 = List.replicate msgs.length true ∧
      (h.addMessages msgs).2.sizeInBytes = h.sizeInBytes + totalSize msgs := by
  induction msgs with
  | nil => intro h _; simp [addMessages, totalSize]
  | cons m rest ih =>
    intro h h0
    have hsp : h.hasRegularSpaceFor m.length = true := by
      simp [hasRegularSpaceFor, hasSpaceFor, h0]
    have hrec := ih (h.addMessageInternal m) (by simp [addMessageInternal, h0])
    simp only [addMessages, addMessage, hsp, if_true, List.length_cons,
      List.replicate_succ, totalSize]
    refine ⟨by simp [hrec.1], ?_⟩
    rw [hrec.2]
    simp [addMessageInternal]
    omega

/-- Claim C9: with `sizeLimit() == 0` (the default, meaning no limit),
`hasRegularSpaceFor` is true for every size, `addMessage` never takes
the capacity-failure branch, and the size grows without bound by the
total size of whatever is appended. -/
theorem SessionHistory.unlimited_when_sizeLimit_zero (h : SessionHistory)
    (h0 : h.sizeLimit = 0) :
    (∀ n, h.hasRegularSpaceFor n = true) ∧
    (∀ msg, h.addMessage msg = (true, h.addMessageInternal msg)) ∧
    (∀ msgs : List Message,
      (h.addMessages msgs).1 = List.replicate msgs.length true ∧
      (h.addMessages msgs).2.sizeInBytes = h.sizeInBytes + totalSize msgs) := by
  refine ⟨?_, ?_, ?_⟩
  · intro n; simp [hasRegularSpaceFor, hasSpaceFor, h0]
  · intro msg
    have hsp : h.hasRegularSpaceFor msg.length = true := by
      simp [hasRegularSpaceFor, hasSpaceFor, h0]
    simp [addMessage, hsp]
  · intro msgs; exact SessionHistory.addMessages_of_sizeLimit_zero msgs h h0

/-- Witness for C9 at a concrete history with no size limit. -/
theorem SessionHistory.unlimited_when_sizeLimit_zero_witness :
    (SessionHistory.mk 7 0 0 (-1) [] 1).sizeLimit = 0 ∧
    (SessionHistory.mk 7 0 0 (-1) [] 1).hasRegularSpaceFor 123456789 = true ∧
    ((SessionHistory.mk 7 0 0 (-1) [] 1).addMessages
      [⟨1000000⟩, ⟨2000000⟩]).2.sizeInBytes = 7 + totalSize [⟨1000000⟩, ⟨2000000⟩] :=
  ⟨rfl,
    (SessionHistory.unlimited_when_sizeLimit_zero ⟨7, 0, 0, -1, [], 1⟩ rfl).1 123456789,
    ((SessionHistory.unlimited_when_sizeLimit_zero ⟨7, 0, 0, -1, [], 1⟩ rfl).2.2
      [⟨1000000⟩, ⟨2000000⟩]).2⟩

/-- Claim C3: with a nonzero size limit, `addEmergencyMessage` succeeds
exactly while `sizeInBytes + size(msg) ≤ sizeLimit + 1 MiB`, and beyond
that it returns false leaving the state unchanged. -/
theorem SessionHistory.addEmergencyMessage_spec (h : SessionHistory)
    (msg : Message) (hpos : 0 < h.sizeLimit) :
    ((h.addEmergencyMessage msg).1 = true ↔
      h.sizeInBytes + msg.length ≤ h.sizeLimit + 1024 * 1024) ∧
    (h.sizeLimit + 1024 * 1024 < h.sizeInBytes + msg.length →
      h.addEmergencyMessage msg = (false, h)) := by
  have h0 : (h.sizeLimit == 0) = false := by
    simp only [beq_eq_false_iff_ne]
    omega
  by_cases hc : h.sizeInBytes + msg.length ≤ h.sizeLimit + 1024 * 1024
  · constructor
    · simp [addEmergencyMessage, hasEmergencySpaceFor, hasSpaceFor, h0, hc]
    · intro hgt; omega
  · constructor
    · simp [addEmergencyMessage, hasEmergencySpaceFor, hasSpaceFor, h0, hc]
    · intro _
      simp [addEmergencyMessage, hasEmergencySpaceFor, hasSpaceFor, h0, hc]

/-- Witness for C3: an emergency message that fits only thanks to the
1 MiB emergency allowance, and one that exceeds it. -/
theorem SessionHistory.addEmergencyMessage_spec_witness :
    (0 < (SessionHistory.mk 100 100 0 (-1) [] 1).sizeLimit ∧
      ((SessionHistory.mk 100 100 0 (-1) [] 1).addEmergencyMessage
        ⟨1048576⟩).1 = true) ∧
    ((SessionHistory.mk 100 100 0 (-1) [] 1).addEmergencyMessage ⟨1048577⟩ =
      (false, SessionHistory.mk 100 100 0 (-1) [] 1)) :=
  ⟨⟨by norm_num,
      (SessionHistory.addEmergencyMessage_spec ⟨100, 100, 0, -1, [], 1⟩
        ⟨1048576⟩ (by norm_num)).1.mpr (by norm_num)⟩,
    (SessionHistory.addEmergencyMessage_spec ⟨100, 100, 0, -1, [], 1⟩
      ⟨1048577⟩ (by norm_num)).2 (by norm_num)⟩

/-- Claim C4: every `nextCatchupKey()` call returns a nonzero key within
[MIN_CATCHUP_KEY, MAX_CATCHUP_KEY], and after returning the maximum the
next call returns INITIAL_CATCHUP_KEY, not the minimum. -/
theorem SessionHistory.nextCatchupKey_spec (h : SessionHistory) :
    (h.nextCatchupKey).1 ≠ 0 ∧
    MIN_CATCHUP_KEY ≤ (h.nextCatchupKey).1 ∧
    (h.nextCatchupKey).1 ≤ MAX_CATCHUP_KEY ∧
    ((h.nextCatchupKey).1 = MAX_CATCHUP_KEY →
      ((h.nextCatchupKey).2.nextCatchupKey).1 = INITIAL_CATCHUP_KEY ∧
      ((h.nextCatchupKey).2.nextCatchupKey).1 ≠ MIN_CATCHUP_KEY) := by
  simp only [SessionHistory.nextCatchupKey, incrementNextCatchupKey,
    MIN_CATCHUP_KEY, MAX_CATCHUP_KEY, INITIAL_CATCHUP_KEY]
  refine ⟨by omega, by omega, by omega, ?_⟩
  intro heq
  have hif : (if max 1 (min h.catchupKey 999999999) ≥ 999999999 then
      (1000000 : Int) else max 1 (min h.catchupKey 999999999) + 1) = 1000000 := by
    rw [if_pos (by omega)]
  constructor <;> simp [hif] <;> omega

/-- When every message of a sequence fits (cumulative size within the
limit), each `addMessage` call succeeds and the size grows by exactly
the total appended size. -/
theorem SessionHistory.addMessages_all_fit (msgs : List Message) :
    ∀ h : SessionHistory, h.sizeInBytes + totalSize msgs ≤ h.sizeLimit →
      (h.addMessages msgs).1 = List.replicate msgs.length true ∧
      (h.addMessages msgs).2.sizeInBytes = h.sizeInBytes + totalSize msgs := by
  induction msgs with
  | nil => intro h _; simp [addMessages, totalSize]
  | cons m rest ih =>
    intro h hb
    simp only [totalSize] at hb
    have hsp : h.hasRegularSpaceFor m.length = true := by
      simp only [hasRegularSpaceFor, hasSpaceFor, Bool.or_eq_true,
        decide_eq_true_eq, beq_iff_eq]
      omega
    have hrec := ih (h.addMessageInternal m)
      (by simp only [addMessageInternal]; omega)
    simp only [addMessages, addMessage, hsp, if_true, List.length_cons,
      List.replicate_succ, totalSize]
    refine ⟨by simp [hrec.1], ?_⟩
    rw [hrec.2]
    simp [addMessageInternal]
    omega

/-- Claim C1: with a nonzero size limit, a sequence of `addMessage`
calls whose cumulative size stays within the limit returns true on every
call and leaves `sizeInBytes` equal to the starting size plus the sum of
the appended sizes; a call for which `hasRegularSpaceFor` is false
returns false and leaves the whole state (size, indices, message list)
unchanged. -/
theorem SessionHistory.addMessage_spec (h : SessionHistory)
    (msgs : List Message) (_hpos : 0 < h.sizeLimit) :
    (h.sizeInBytes + totalSize msgs ≤ h.sizeLimit →
      (h.addMessages msgs).1 = List.replicate msgs.length true ∧
      (h.addMessages msgs).2.sizeInBytes = h.sizeInBytes + totalSize msgs) ∧
    (∀ msg, h.hasRegularSpaceFor msg.length = false →
      h.addMessage msg = (false, h)) := by
  constructor
  · intro hb; exact SessionHistory.addMessages_all_fit msgs h hb
  · intro msg hno; simp [addMessage, hno]

/-- Witness for C1: two messages filling a 100-byte limit exactly, then
a failed oversized append that changes nothing. -/
theorem SessionHistory.addMessage_spec_witness :
    (0 < (SessionHistory.mk 0 100 0 (-1) [] 1).sizeLimit ∧
      (SessionHistory.mk 0 100 0 (-1) [] 1).sizeInBytes +
        totalSize [⟨30⟩, ⟨70⟩] ≤ (SessionHistory.mk 0 100 0 (-1) [] 1).sizeLimit ∧
      ((SessionHistory.mk 0 100 0 (-1) [] 1).addMessages [⟨30⟩, ⟨70⟩]).1 =
        List.replicate 2 true ∧
      ((SessionHistory.mk 0 100 0 (-1) [] 1).addMessages
        [⟨30⟩, ⟨70⟩]).2.sizeInBytes = 100) ∧
    ((SessionHistory.mk 90 100 0 (-1) [] 1).hasRegularSpaceFor 11 = false ∧
      (SessionHistory.mk 90 100 0 (-1) [] 1).addMessage ⟨11⟩ =
        (false, SessionHistory.mk 90 100 0 (-1) [] 1)) :=
  ⟨⟨by decide, by decide,
      ((SessionHistory.addMessage_spec ⟨0, 100, 0, -1, [], 1⟩ [⟨30⟩, ⟨70⟩]
        (by decide)).1 (by decide)).1,
      ((SessionHistory.addMessage_spec ⟨0, 100, 0, -1, [], 1⟩ [⟨30⟩, ⟨70⟩]
        (by decide)).1 (by decide)).2⟩,
    ⟨by decide,
      (SessionHistory.addMessage_spec ⟨90, 100, 0, -1, [], 1⟩ [] (by decide)).2
        ⟨11⟩ (by decide)⟩⟩

/-- Claim C2: with a nonzero size limit, `reset` fails without any
mutation when the new history exceeds the limit; on success the index
span equals the new message count, the size equals the new total size
(not additive with the prior size), and neither index is rewound below
its pre-reset value. -/
theorem SessionHistory.reset_spec (h : SessionHistory)
    (newHistory : List Message) (hpos : 0 < h.sizeLimit)
    (hvalid : h.firstIndex ≤ h.lastIndex + 1) :
    (h.sizeLimit < totalSize newHistory → h.reset newHistory = (false, h)) ∧
    (totalSize newHistory ≤ h.sizeLimit →
      (h.reset newHistory).1 = true ∧
      (h.reset newHistory).2.lastIndex - (h.reset newHistory).2.firstIndex + 1 =
        newHistory.length ∧
      (h.reset newHistory).2.sizeInBytes = totalSize newHistory ∧
      h.firstIndex ≤ (h.reset newHistory).2.firstIndex ∧
      h.lastIndex ≤ (h.reset newHistory).2.lastIndex) := by
  constructor
  · intro hgt
    simp only [reset]
    rw [if_pos ⟨by omega, hgt⟩]
  · intro hle
    have hnot : ¬(h.sizeLimit ≠ 0 ∧ totalSize newHistory > h.sizeLimit) := by
      omega
    refine ⟨?_, ?_, ?_, ?_, ?_⟩ <;> simp [reset, hnot]
    all_goals omega

/-- Witness for C2: a rejected oversized reset and an accepted one whose
indices continue past the old history. -/
theorem SessionHistory.reset_spec_witness :
    ((SessionHistory.mk 80 100 3 12 [] 1).reset [⟨60⟩, ⟨50⟩] =
      (false, SessionHistory.mk 80 100 3 12 [] 1)) ∧
    (((SessionHistory.mk 80 100 3 12 [] 1).reset [⟨40⟩, ⟨50⟩]).1 = true ∧
      ((SessionHistory.mk 80 100 3 12 [] 1).reset [⟨40⟩, ⟨50⟩]).2.sizeInBytes = 90 ∧
      (SessionHistory.mk 80 100 3 12 [] 1).lastIndex ≤
        ((SessionHistory.mk 80 100 3 12 [] 1).reset [⟨40⟩, ⟨50⟩]).2.lastIndex) :=
  ⟨(SessionHistory.reset_spec ⟨80, 100, 3, 12, [], 1⟩ [⟨60⟩, ⟨50⟩] (by decide)
      (by decide)).1 (by decide),
    ⟨((SessionHistory.reset_spec ⟨80, 100, 3, 12, [], 1⟩ [⟨40⟩, ⟨50⟩] (by decide)
        (by decide)).2 (by decide)).1,
      ((SessionHistory.reset_spec ⟨80, 100, 3, 12, [], 1⟩ [⟨40⟩, ⟨50⟩] (by decide)
        (by decide)).2 (by decide)).2.2.1,
      ((SessionHistory.reset_spec ⟨80, 100, 3, 12, [], 1⟩ [⟨40⟩, ⟨50⟩] (by decide)
        (by decide)).2 (by decide)).2.2.2.2⟩⟩

/-- Claim C7: `createSession` fails only with the error codes `idInuse`,
`badProtocol` or `closed`; in particular a call whose ID or alias is
already registered yields a null session, the `idInuse` code, and an
unchanged registry. -/
theorem Sessions.createSession_spec (reg : Sessions)
    (sid sidAlias ver founder : String) :
    ((reg.createSession sid sidAlias ver founder).1 = none →
      (reg.createSession sid sidAlias ver founder).2.1 = "idInuse" ∨
      (reg.createSession sid sidAlias ver founder).2.1 = "badProtocol" ∨
      (reg.createSession sid sidAlias ver founder).2.1 = "closed") ∧
    ((reg.inUse sid = true ∨ (sidAlias ≠ "" ∧ reg.inUse sidAlias = true)) →
      (reg.createSession sid sidAlias ver founder).1 = none ∧
      (reg.createSession sid sidAlias ver founder).2.1 = "idInuse" ∧
      (reg.createSession sid sidAlias ver founder).2.2 = reg) := by
  constructor
  · intro hnone
    simp only [createSession] at hnone ⊢
    split at hnone
    next hc1 =>
      exact Or.inl (by rw [if_pos hc1])
    next hc1 =>
      split at hnone
      next hc2 =>
        exact Or.inr (Or.inl (by rw [if_neg hc1, if_pos hc2]))
      next hc2 =>
        split at hnone
        next hc3 =>
          exact Or.inr (Or.inr (by rw [if_neg hc1, if_neg hc2, if_pos hc3]))
        next hc3 =>
          simp at hnone
  · intro hdup
    have hcond : (reg.inUse sid || (sidAlias != "" && reg.inUse sidAlias)) = true := by
      rcases hdup with hid | ⟨hne, hal⟩
      · simp [hid]
      · simp [hal, bne_iff_ne, hne]
    simp [createSession, hcond]

/-- Witness for C7: creating a session whose ID collides with a live
session returns `idInuse` and leaves the registry unchanged. -/
theorem Sessions.createSession_spec_witness :
    (Sessions.mk [⟨"abc", "vanity", "ann"⟩] (fun _ => true) 10).inUse "abc" = true ∧
    ((Sessions.mk [⟨"abc", "vanity", "ann"⟩] (fun _ => true) 10).createSession
      "abc" "" "2.2" "bob").1 = none ∧
    ((Sessions.mk [⟨"abc", "vanity", "ann"⟩] (fun _ => true) 10).createSession
      "abc" "" "2.2" "bob").2.1 = "idInuse" ∧
    ((Sessions.mk [⟨"abc", "vanity", "ann"⟩] (fun _ => true) 10).createSession
      "abc" "" "2.2" "bob").2.2 = Sessions.mk [⟨"abc", "vanity", "ann"⟩] (fun _ => true) 10 :=
  ⟨by decide,
    (Sessions.createSession_spec (Sessions.mk [⟨"abc", "vanity", "ann"⟩]
      (fun _ => true) 10) "abc" "" "2.2" "bob").2 (Or.inl (by decide))⟩

/-- Bitmask fact: setting bits with an OR makes the mask test succeed. -/
theorem lor_land_self (i v : Nat) : (i ||| v) &&& v = v := by
  apply Nat.eq_of_testBit_eq
  intro j
  rw [Nat.testBit_land, Nat.testBit_lor]
  cases hv : Nat.testBit v j <;> simp [hv]

/-- Bitmask fact: clearing bits with an AND-NOT makes the mask test
fail. -/
theorem ldiff_land_self (i v : Nat) : Nat.ldiff i v &&& v = 0 := by
  apply Nat.eq_of_testBit_eq
  intro j
  rw [Nat.testBit_land, Nat.testBit_ldiff]
  cases hv : Nat.testBit v j <;> simp [hv]

/-- Every `SessionHistory::Flag` value is nonzero. -/
theorem flagValue_pos (f : Flag) : 0 < flagValue f := by
  cases f <;> decide

/-- After writing a flag value into the bitmask, testing it reads back
exactly the written value. -/
theorem testFlag_setFlagValue (i : Nat) (f : Flag) (flagOn : Bool) :
    testFlag (setFlagValue i f flagOn) f = flagOn := by
  cases flagOn
  · show (Nat.ldiff i (flagValue f) &&& flagValue f == flagValue f) = false
    rw [ldiff_land_self]
    have hpos := flagValue_pos f
    simp only [beq_eq_false_iff_ne]
    omega
  · show ((i ||| flagValue f) &&& flagValue f == flagValue f) = true
    rw [lor_land_self]
    simp

/-- A `setFlag` call requesting the value the flag already has is a
no-op. -/
theorem InMemoryHistory.setFlag_noop (h : InMemoryHistory) (f : Flag)
    (flagOn : Bool) (hcur : testFlag h.flags f = flagOn) :
    h.setFlag f flagOn = (false, h) := by
  cases flagOn <;> simp [setFlag, hcur]

/-- Claim C10: `setFlag` invokes the persisting `setFlags` exactly when
the flag's current value differs from the requested one; afterwards
`hasFlag` reads the requested value, and repeating the same call is a
no-op returning false with the state unchanged. -/
theorem InMemoryHistory.setFlag_spec (h : InMemoryHistory) (f : Flag)
    (flagOn : Bool) :
    ((h.setFlag f flagOn).1 = true ↔ h.hasFlag f ≠ flagOn) ∧
    (h.setFlag f flagOn).2.hasFlag f = flagOn ∧
    (h.setFlag f flagOn).2.setFlag f flagOn = (false, (h.setFlag f flagOn).2) := by
  have hset := testFlag_setFlagValue h.flags f flagOn
  have hmain : (h.setFlag f flagOn).2.hasFlag f = flagOn := by
    cases hcur : testFlag h.flags f <;> cases flagOn <;>
      simp_all [setFlag, hasFlag]
  refine ⟨?_, hmain, InMemoryHistory.setFlag_noop _ f flagOn hmain⟩
  cases hcur : testFlag h.flags f <;> cases flagOn <;>
    simp_all [setFlag, hasFlag]

/-- Witness for C10: setting `Persistent` on an empty flag set invokes
the write, reads back true, and a second identical call is a no-op. -/
theorem InMemoryHistory.setFlag_spec_witness :
    (((InMemoryHistory.mk 254 0).setFlag Flag.Persistent true).1 = true ∧
      ((InMemoryHistory.mk 254 0).setFlag Flag.Persistent true).2.hasFlag
        Flag.Persistent = true) ∧
    ((InMemoryHistory.mk 254 0).setFlag Flag.Persistent true).2.setFlag
      Flag.Persistent true =
      (false, ((InMemoryHistory.mk 254 0).setFlag Flag.Persistent true).2) :=
  ⟨⟨(InMemoryHistory.setFlag_spec ⟨254, 0⟩ Flag.Persistent true).1.mpr
      (by decide),
    (InMemoryHistory.setFlag_spec ⟨254, 0⟩ Flag.Persistent true).2.1⟩,
    (InMemoryHistory.setFlag_spec ⟨254, 0⟩ Flag.Persistent true).2.2⟩

/-- A handler in the `Ignore` state absorbs any single message
unchanged. -/
theorem LoginHandler.step_ignore (h : LoginHandler) (e : LoginEvent)
    (hs : h.state = LState.Ignore) : h.step e = h := by
  obtain ⟨s, a, d, ae, c⟩ := h
  simp only at hs
  subst hs
  cases e <;> rfl

/-- A handler in the `Ignore` state absorbs any message sequence
unchanged. -/
theorem LoginHandler.run_ignore (es : List LoginEvent) :
    ∀ h : LoginHandler, h.state = LState.Ignore → h.run es = h := by
  induction es with
  | nil => intro h _; rfl
  | cons e rest ih =>
    intro h hs
    show (h.step e).run rest = h
    rw [LoginHandler.step_ignore h e hs]
    exact ih h hs

/-- One step preserves the lockout invariant: whenever the failed
password counter has reached the maximum, the handler is already in
`Ignore`, disconnected, with the authentication error sent. -/
theorem LoginHandler.step_lockout (h : LoginHandler) (e : LoginEvent)
    (hi : MAX_PASSWORD_ATTEMPTS ≤ h.authPasswordAttempts →
      h.state = LState.Ignore ∧ h.disconnected = true ∧
      h.authErrorSent = true) :
    MAX_PASSWORD_ATTEMPTS ≤ (h.step e).authPasswordAttempts →
      (h.step e).state = LState.Ignore ∧ (h.step e).disconnected = true ∧
      (h.step e).authErrorSent = true := by
  obtain ⟨s, a, d, ae, c⟩ := h
  cases s <;> cases e <;>
    simp_all [step, fatal, MAX_PASSWORD_ATTEMPTS]
  all_goals split_ifs <;> simp_all

/-- The lockout invariant is preserved along any run. -/
theorem LoginHandler.run_lockout (es : List LoginEvent) :
    ∀ h : LoginHandler,
      (MAX_PASSWORD_ATTEMPTS ≤ h.authPasswordAttempts →
        h.state = LState.Ignore ∧ h.disconnected = true ∧
        h.authErrorSent = true) →
      MAX_PASSWORD_ATTEMPTS ≤ (h.run es).authPasswordAttempts →
        (h.run es).state = LState.Ignore ∧ (h.run es).disconnected = true ∧
        (h.run es).authErrorSent = true := by
  induction es with
  | nil => intro h hi; exact hi
  | cons e rest ih =>
    intro h hi
    exact ih (h.step e) (LoginHandler.step_lockout h e hi)

/-- Claim C5: in any run of the handshake from the initial state, once
the client has made the maximum number of incorrect IDENT password
attempts it is disconnected with an authentication error in the
terminal `Ignore` state, and from there no further messages can ever
bring it to `WaitForLogin`. -/
theorem LoginHandler.passwordAttempts_lockout (es : List LoginEvent) :
    (MAX_PASSWORD_ATTEMPTS ≤ (LoginHandler.init.run es).authPasswordAttempts →
      (LoginHandler.init.run es).disconnected = true ∧
      (LoginHandler.init.run es).authErrorSent = true ∧
      (LoginHandler.init.run es).state = LState.Ignore) ∧
    ((LoginHandler.init.run es).state = LState.Ignore →
      ∀ es2, ((LoginHandler.init.run es).run es2).state = LState.Ignore) := by
  constructor
  · intro hcnt
    have base : MAX_PASSWORD_ATTEMPTS ≤ LoginHandler.init.authPasswordAttempts →
        LoginHandler.init.state = LState.Ignore ∧
        LoginHandler.init.disconnected = true ∧
        LoginHandler.init.authErrorSent = true := by
      intro hx
      exact absurd hx (by decide)
    have hrun := LoginHandler.run_lockout es LoginHandler.init base hcnt
    exact ⟨hrun.2.1, hrun.2.2, hrun.1⟩
  · intro hig es2
    rw [LoginHandler.run_ignore es2 _ hig]
    exact hig

/-- Witness for C5: after STARTTLS, a lookup, and ten wrong passwords,
the handler is disconnected with an authentication error and stays in
`Ignore` whatever arrives next. -/
theorem LoginHandler.passwordAttempts_lockout_witness :
    (MAX_PASSWORD_ATTEMPTS ≤ (LoginHandler.init.run
      ([LoginEvent.starttls, LoginEvent.lookupOk] ++
        List.replicate 10 LoginEvent.identWrongPassword)).authPasswordAttempts) ∧
    ((LoginHandler.init.run
      ([LoginEvent.starttls, LoginEvent.lookupOk] ++
        List.replicate 10 LoginEvent.identWrongPassword)).disconnected = true ∧
      (LoginHandler.init.run
        ([LoginEvent.starttls, LoginEvent.lookupOk] ++
          List.replicate 10 LoginEvent.identWrongPassword)).authErrorSent = true ∧
      (LoginHandler.init.run
        ([LoginEvent.starttls, LoginEvent.lookupOk] ++
          List.replicate 10 LoginEvent.identWrongPassword)).state = LState.Ignore) ∧
    ((LoginHandler.init.run
      ([LoginEvent.starttls, LoginEvent.lookupOk] ++
        List.replicate 10 LoginEvent.identWrongPassword)).run
        [LoginEvent.identOk]).state = LState.Ignore :=
  ⟨by decide,
    (LoginHandler.passwordAttempts_lockout
      ([LoginEvent.starttls, LoginEvent.lookupOk] ++
        List.replicate 10 LoginEvent.identWrongPassword)).1 (by decide),
    (LoginHandler.passwordAttempts_lockout
      ([LoginEvent.starttls, LoginEvent.lookupOk] ++
        List.replicate 10 LoginEvent.identWrongPassword)).2 (by decide)
      [LoginEvent.identOk]⟩

/-- Claim C6: the handshake starts in `WaitForSecure`; every step either
keeps the state, advances it to the next state of the chain
`WaitForSecure → WaitForLookup → WaitForIdent → WaitForLogin`, or drops
to `Ignore`; in `WaitForSecure` (encryption mandated) exactly the
STARTTLS command advances the state and anything else is a
disconnecting error; and `Ignore` is a terminal sink. -/
theorem LoginHandler.state_progression :
    LoginHandler.init.state = LState.WaitForSecure ∧
    (∀ (h : LoginHandler) (e : LoginEvent),
      (h.step e).state = h.state ∨
      (h.step e).state = LoginHandler.chainNext h.state ∨
      (h.step e).state = LState.Ignore) ∧
    (∀ (h : LoginHandler) (e : LoginEvent), h.state = LState.WaitForSecure →
      (e = LoginEvent.starttls → (h.step e).state = LState.WaitForLookup) ∧
      (e ≠ LoginEvent.starttls → (h.step e).state = LState.Ignore ∧
        (h.step e).disconnected = true)) ∧
    (∀ (h : LoginHandler) (es : List LoginEvent),
      h.state = LState.Ignore → h.run es = h) := by
  refine ⟨rfl, ?_, ?_, ?_⟩
  · intro h e
    obtain ⟨s, a, d, ae, c⟩ := h
    cases s <;> cases e <;> simp [step, fatal, chainNext]
    all_goals split_ifs <;> simp
  · intro h e hs
    obtain ⟨s, a, d, ae, c⟩ := h
    simp only at hs
    subst hs
    cases e <;> simp [step, fatal]
  · intro h es hs
    exact LoginHandler.run_ignore es h hs

/-- Witness for C6: from `WaitForSecure`, STARTTLS advances to
`WaitForLookup` while any other message drops the connection into
`Ignore`. -/
theorem LoginHandler.state_progression_witness :
    ((LoginHandler.mk LState.WaitForSecure 0 false false false).step
      LoginEvent.starttls).state = LState.WaitForLookup ∧
    ((LoginHandler.mk LState.WaitForSecure 0 false false false).step
      LoginEvent.other).state = LState.Ignore ∧
    ((LoginHandler.mk LState.WaitForSecure 0 false false false).step
      LoginEvent.other).disconnected = true :=
  ⟨(LoginHandler.state_progression.2.2.1
      (LoginHandler.mk LState.WaitForSecure 0 false false false)
      LoginEvent.starttls rfl).1 rfl,
    (LoginHandler.state_progression.2.2.1
      (LoginHandler.mk LState.WaitForSecure 0 false false false)
      LoginEvent.other rfl).2 (by decide) |>.1,
    (LoginHandler.state_progression.2.2.1
      (LoginHandler.mk LState.WaitForSecure 0 false false false)
      LoginEvent.other rfl).2 (by decide) |>.2⟩

/-- Witness for C4 at the wraparound point. -/
theorem SessionHistory.nextCatchupKey_spec_witness :
    ((SessionHistory.mk 0 0 0 (-1) [] 999999999).nextCatchupKey).1 =
      MAX_CATCHUP_KEY ∧
    (((SessionHistory.mk 0 0 0 (-1) [] 999999999).nextCatchupKey).2.nextCatchupKey).1 =
      INITIAL_CATCHUP_KEY :=
  ⟨by decide,
    ((SessionHistory.nextCatchupKey_spec ⟨0, 0, 0, -1, [], 999999999⟩).2.2.2
      (by decide)).1⟩

end Drawpile
